import Mathlib

/-!
Verification of the gomad bridge subsystem: the wire Message codec
(internal/bridge/message.go), the function Registry
(internal/bridge/registry.go) and the Bridge coordinator, embedded
shallowly in Lean.  JSON documents are modelled as parse trees (the
lexical layer of encoding/json is not modelled); Go values that can
flow through the bridge are modelled by an explicit universe `GoVal`,
and Go errors by the inductive `GoError` mirroring the sentinel errors
and the `BindingError` wrapper of the internal errors package.
-/

namespace Gomad

/-- A JSON document, at parse-tree level.  Numbers are modelled as
integers: every numeral the claims exercise is integral. -/
inductive Json where
  | null : Json
  | bool (b : Bool) : Json
  | num (n : Int) : Json
  | str (s : String) : Json
  | arr (xs : List Json) : Json
  | obj (fields : List (String × Json)) : Json

/-- The JSON kind name used in encoding/json unmarshal error texts. -/
def jsonKindName : Json → String
  | .null => "null"
  | .bool _ => "bool"
  | .num _ => "number"
  | .str _ => "string"
  | .arr _ => "array"
  | .obj _ => "object"

/-- Go parameter types supported by the embedding (JSON-decodable
scalar types; arbitrary further types behave analogously). -/
inductive GoType where
  | int : GoType
  | bool : GoType
  | string : GoType
deriving DecidableEq

def goTypeName : GoType → String
  | .int => "int"
  | .bool => "bool"
  | .string => "string"

/-- A Go runtime value as seen through `interface\x7b\x7d`: JSON-representable
scalars, arrays and maps, the nil interface, and values with no JSON
representation (channels, funcs), for which `json.Marshal` fails. -/
inductive GoVal where
  | nilVal : GoVal
  | int (n : Int) : GoVal
  | bool (b : Bool) : GoVal
  | str (s : String) : GoVal
  | arr (xs : List GoVal) : GoVal
  | obj (fields : List (String × GoVal)) : GoVal
  | chanVal (tag : String) : GoVal

/-- Sentinel errors of the internal errors package. -/
inductive Sentinel where
  | notReady
  | alreadyExists
  | notFound
  | invalidArgument
  | closed
deriving DecidableEq

def sentinelText : Sentinel → String
  | .notReady => "component not ready"
  | .alreadyExists => "already exists"
  | .notFound => "not found"
  | .invalidArgument => "invalid argument"
  | .closed => "resource closed"

/-- Go error values flowing through the bridge: sentinels, errors
produced by encoding/json, `BindingError` (which wraps an optional
cause, exposed through `Unwrap`), and other errors (a bound function's
own error, `fmt.Errorf` results); `custom` may wrap a cause the way
`fmt.Errorf` with %w does. -/
inductive GoError where
  | sentinel (s : Sentinel) : GoError
  | jsonError (msg : String) : GoError
  | bindingError (funcName reason : String) (cause : Option GoError) : GoError
  | custom (msg : String) (cause : Option GoError) : GoError

/-- errors.Is: walk the Unwrap chain looking for the given sentinel. -/
def errorsIs : GoError → Sentinel → Bool
  | .sentinel s, t => s = t
  | .jsonError _, _ => false
  | .bindingError _ _ (some c), t => errorsIs c t
  | .bindingError _ _ none, _ => false
  | .custom _ (some c), t => errorsIs c t
  | .custom _ none, _ => false

/-- The Error() string of a GoError (BindingError.Error formatting). -/
def errorString : GoError → String
  | .sentinel s => sentinelText s
  | .jsonError m => m
  | .bindingError n reason (some c) =>
      "binding '" ++ n ++ "' failed: " ++ reason ++ ": " ++ errorString c
  | .bindingError n reason none =>
      "binding '" ++ n ++ "' failed: " ++ reason
  | .custom m _ => m

/-- NewBindingError from the internal errors package. -/
def NewBindingError (funcName reason : String) (cause : Option GoError) : GoError :=
  .bindingError funcName reason cause

/-- json.Unmarshal of a raw JSON value into a freshly allocated value
of a declared Go parameter type.  JSON null leaves the zero value (a
no-op success, as encoding/json specifies); a kind mismatch fails. -/
def decodeArg : GoType → Json → Option GoVal
  | .int, .null => some (.int 0)
  | .int, .num n => some (.int n)
  | .int, _ => none
  | .bool, .null => some (.bool false)
  | .bool, .bool b => some (.bool b)
  | .bool, _ => none
  | .string, .null => some (.str "")
  | .string, .str s => some (.str s)
  | .string, _ => none

/-- The message text of the unmarshal type error for a mismatch. -/
def unmarshalErrMsg (t : GoType) (j : Json) : String :=
  "json: cannot unmarshal " ++ jsonKindName j ++ " into Go value of type " ++ goTypeName t

mutual
/-- json.Marshal of a Go value; fails (returns none) when the value
contains a channel/func, which has no JSON representation. -/
def encodeGoVal : GoVal → Option Json
  | .nilVal => some .null
  | .int n => some (.num n)
  | .bool b => some (.bool b)
  | .str s => some (.str s)
  | .arr xs => Option.map Json.arr (encodeGoValList xs)
  | .obj fs => Option.map Json.obj (encodeGoValObj fs)
  | .chanVal _ => none

def encodeGoValList : List GoVal → Option (List Json)
  | [] => some []
  | x :: xs =>
    match encodeGoVal x, encodeGoValList xs with
    | some j, some js => some (j :: js)
    | _, _ => none

def encodeGoValObj : List (String × GoVal) → Option (List (String × Json))
  | [] => some []
  | (k, v) :: xs =>
    match encodeGoVal v, encodeGoValObj xs with
    | some j, some js => some ((k, j) :: js)
    | _, _ => none
end

/-! ## Wire Message model (internal/bridge/message.go) -/

/-- Message type constants. -/
def MessageTypeCall : String := "call"

def MessageTypeResult : String := "result"

def MessageTypeError : String := "error"

def MessageTypeEvent : String := "event"

/-- Standard wire error codes. -/
def ErrCodeUnknown : Int := -1

def ErrCodeMethodNotFound : Int := -2

def ErrCodeInvalidArgs : Int := -3

def ErrCodeExecution : Int := -4

/-- The structured error payload embedded in error-type messages. -/
structure ErrorPayload where
  code : Int := 0
  message : String := ""
  details : String := ""
deriving DecidableEq

/-- The wire envelope.  Raw-JSON fields (`args`, `result`, `data`)
hold the parse tree of the raw bytes; `none` models a nil
json.RawMessage (field absent). -/
structure Message where
  id : String := ""
  type : String := ""
  method : String := ""
  args : Option Json := none
  result : Option Json := none
  error : Option ErrorPayload := none
  event : String := ""
  data : Option Json := none
  timestamp : Int := 0

def errorPayloadToJSON (e : ErrorPayload) : Json :=
  .obj ([("code", .num e.code), ("message", .str e.message)]
    ++ (if e.details = "" then [] else [("details", .str e.details)]))

/-- json.Marshal of a Message: fields in struct order, omitempty on
every field except `type`. -/
def Message.toJSON (m : Message) : Json :=
  .obj (List.filterMap (fun f => f) [
    if m.id = "" then none else some ("id", .str m.id),
    some ("type", .str m.type),
    if m.method = "" then none else some ("method", .str m.method),
    m.args.map (fun j => ("args", j)),
    m.result.map (fun j => ("result", j)),
    m.error.map (fun e => ("error", errorPayloadToJSON e)),
    if m.event = "" then none else some ("event", .str m.event),
    m.data.map (fun j => ("data", j)),
    if m.timestamp = 0 then none else some ("timestamp", .num m.timestamp)])

/-- Decoding of one object field of an ErrorPayload (null is a no-op,
unknown keys are ignored, kind mismatches fail). -/
def applyErrField (ep : ErrorPayload) : String × Json → Except GoError ErrorPayload
  | ("code", .num n) => .ok { ep with code := n }
  | ("code", .null) => .ok ep
  | ("code", j) => .error (.jsonError (unmarshalErrMsg .int j))
  | ("message", .str s) => .ok { ep with message := s }
  | ("message", .null) => .ok ep
  | ("message", j) => .error (.jsonError (unmarshalErrMsg .string j))
  | ("details", .str s) => .ok { ep with details := s }
  | ("details", .null) => .ok ep
  | ("details", j) => .error (.jsonError (unmarshalErrMsg .string j))
  | (_, _) => .ok ep

/-- Decoding of one object field of a Message, mirroring
encoding/json: string fields demand a JSON string (null is a no-op);
raw fields capture any value verbatim, null included; the error field
demands an object (null leaves the nil pointer); unknown keys are
ignored.  Later duplicate keys overwrite earlier ones. -/
def applyField (msg : Message) : String × Json → Except GoError Message
  | ("id", .str s) => .ok { msg with id := s }
  | ("id", .null) => .ok msg
  | ("id", j) => .error (.jsonError (unmarshalErrMsg .string j))
  | ("type", .str s) => .ok { msg with type := s }
  | ("type", .null) => .ok msg
  | ("type", j) => .error (.jsonError (unmarshalErrMsg .string j))
  | ("method", .str s) => .ok { msg with method := s }
  | ("method", .null) => .ok msg
  | ("method", j) => .error (.jsonError (unmarshalErrMsg .string j))
  | ("args", j) => .ok { msg with args := some j }
  | ("result", j) => .ok { msg with result := some j }
  | ("error", .obj fs) =>
      (fs.foldlM applyErrField {}).map (fun ep => { msg with error := some ep })
  | ("error", .null) => .ok msg
  | ("error", j) =>
      .error (.jsonError ("json: cannot unmarshal " ++ jsonKindName j
        ++ " into Go value of type bridge.ErrorPayload"))
  | ("event", .str s) => .ok { msg with event := s }
  | ("event", .null) => .ok msg
  | ("event", j) => .error (.jsonError (unmarshalErrMsg .string j))
  | ("data", j) => .ok { msg with data := some j }
  | ("timestamp", .num n) => .ok { msg with timestamp := n }
  | ("timestamp", .null) => .ok msg
  | ("timestamp", j) => .error (.jsonError (unmarshalErrMsg .int j))
  | (_, _) => .ok msg

/-- FromJSON: json.Unmarshal of the wire text into a fresh Message.
A top-level null succeeds leaving the zero Message; a non-object
fails; an object is decoded field by field. -/
def FromJSON : Json → Except GoError Message
  | .null => .ok {}
  | .obj fs => fs.foldlM applyField {}
  | j => .error (.jsonError ("json: cannot unmarshal " ++ jsonKindName j
      ++ " into Go value of type bridge.Message"))

/-- NewCallMessage: serialize the arguments, fail on marshal error.
`now` is the UnixMilli timestamp `time.Now` would produce. -/
def NewCallMessage (now : Int) (id method : String) (args : GoVal) :
    Except GoError Message :=
  match encodeGoVal args with
  | none => .error (.jsonError "json: unsupported type")
  | some j => .ok { id := id, type := MessageTypeCall, method := method,
                    args := some j, timestamp := now }

/-- NewResultMessage: serialize the result value (nil marshals to
JSON null), fail on marshal error. -/
def NewResultMessage (now : Int) (id : String) (result : GoVal) :
    Except GoError Message :=
  match encodeGoVal result with
  | none => .error (.jsonError "json: unsupported type")
  | some j => .ok { id := id, type := MessageTypeResult,
                    result := some j, timestamp := now }

/-- NewErrorMessage: always succeeds. -/
def NewErrorMessage (now : Int) (id : String) (code : Int)
    (message details : String) : Message :=
  { id := id, type := MessageTypeError,
    error := some { code := code, message := message, details := details },
    timestamp := now }

/-- NewEventMessage: serialize the payload; no correlation ID. -/
def NewEventMessage (now : Int) (event : String) (data : GoVal) :
    Except GoError Message :=
  match encodeGoVal data with
  | none => .error (.jsonError "json: unsupported type")
  | some j => .ok { type := MessageTypeEvent, event := event,
                    data := some j, timestamp := now }

/-! ## Function Registry (internal/bridge/registry.go) -/

/-- A Go function value, classified by its return shape as
reflect.Type sees it: no returns; one non-error return; one
error-indicator return; a value plus an error-indicator; two returns
whose second does not implement error (rejected at registration);
or more than two returns (`fmany k` stands for `k + 3` returns, also
rejected).  The body gives the runtime behaviour on a call. -/
inductive GoFunc where
  | f0 (params : List GoType) (body : List GoVal → Unit) : GoFunc
  | f1val (params : List GoType) (body : List GoVal → GoVal) : GoFunc
  | f1err (params : List GoType) (body : List GoVal → Option GoError) : GoFunc
  | f2 (params : List GoType) (body : List GoVal → GoVal × Option GoError) : GoFunc
  | f2noerr (params : List GoType) (body : List GoVal → GoVal × GoVal) : GoFunc
  | fmany (params : List GoType) (extraOut : Nat) (lastIsErr : Bool) : GoFunc

/-- reflect NumIn: the declared parameter types. -/
def GoFunc.params : GoFunc → List GoType
  | .f0 ps _ => ps
  | .f1val ps _ => ps
  | .f1err ps _ => ps
  | .f2 ps _ => ps
  | .f2noerr ps _ => ps
  | .fmany ps _ _ => ps

/-- reflect NumOut. -/
def GoFunc.numOut : GoFunc → Nat
  | .f0 _ _ => 0
  | .f1val _ _ => 1
  | .f1err _ _ => 1
  | .f2 _ _ => 2
  | .f2noerr _ _ => 2
  | .fmany _ k _ => k + 3

/-- Whether the last return type implements the error interface. -/
def GoFunc.hasError : GoFunc → Bool
  | .f0 _ _ => false
  | .f1val _ _ => false
  | .f1err _ _ => true
  | .f2 _ _ => true
  | .f2noerr _ _ => false
  | .fmany _ _ le => le

/-- BoundFunc: the snapshot stored by Register. -/
structure BoundFunc where
  name : String
  fn : GoFunc
  numIn : Nat
  numOut : Nat
  hasError : Bool

/-- The BoundFunc Register builds for a validated function. -/
def mkBound (name : String) (f : GoFunc) : BoundFunc :=
  { name := name, fn := f, numIn := f.params.length,
    numOut := f.numOut, hasError := f.hasError }

/-- The `fn interface\x7b\x7d` argument of Register: nil, a non-function
value, or a function value. -/
inductive RegArg where
  | nilArg : RegArg
  | notFunc (tag : String) : RegArg
  | fn (f : GoFunc) : RegArg

/-- The registry's function table, name-keyed. -/
structure Registry where
  funcs : List (String × BoundFunc)

def NewRegistry : Registry := ⟨[]⟩

/-- Map lookup in the function table. -/
def lookupReg (r : Registry) (name : String) : Option BoundFunc :=
  match r.funcs.find? (fun e => e.1 = name) with
  | some e => some e.2
  | none => none

/-- Registry.Register: validate name, value, duplicates and return
shape in source order; on success store the BoundFunc snapshot.
Returns the post-state and the error, if any (all failure paths
leave the table untouched). -/
def Registry.Register (r : Registry) (name : String) (arg : RegArg) :
    Registry × Option GoError :=
  if name = "" then
    (r, some (NewBindingError name "name cannot be empty" none))
  else match arg with
  | .nilArg => (r, some (NewBindingError name "function cannot be nil" none))
  | .notFunc _ => (r, some (NewBindingError name "not a function" none))
  | .fn f =>
    match lookupReg r name with
    | some _ =>
        (r, some (NewBindingError name "already registered"
          (some (.sentinel .alreadyExists))))
    | none =>
      if f.numOut > 2 then
        (r, some (NewBindingError name "too many return values (max 2)" none))
      else if f.numOut = 2 && !f.hasError then
        (r, some (NewBindingError name "second return value must be error" none))
      else
        (⟨(name, mkBound name f) :: r.funcs⟩, none)

/-- Registry.Unregister: remove the entry if present, report whether
it existed. -/
def Registry.Unregister (r : Registry) (name : String) : Registry × Bool :=
  match lookupReg r name with
  | some _ => (⟨r.funcs.filter (fun e => ¬ e.1 = name)⟩, true)
  | none => (r, false)

/-- Registry.Has. -/
def Registry.Has (r : Registry) (name : String) : Bool :=
  (lookupReg r name).isSome

/-- Decoding of the raw args field into the per-argument raw slots:
absent or JSON null give zero arguments; a JSON array gives its
elements; anything else is an unmarshal failure into a slice. -/
def parseRawArgs (name : String) : Option Json → Except GoError (List Json)
  | none => .ok []
  | some .null => .ok []
  | some (.arr xs) => .ok xs
  | some j => .error (NewBindingError name "failed to parse arguments"
      (some (.jsonError ("json: cannot unmarshal " ++ jsonKindName j
        ++ " into Go value of type []json.RawMessage"))))

/-- The per-position argument decode loop of Registry.Call: decode
slot `i` into the declared parameter type, stopping at the first
failure with the conversion BindingError wrapping the json error. -/
def decodeLoop (name : String) (i : Nat) :
    List GoType → List Json → Except GoError (List GoVal)
  | [], _ => .ok []
  | _ :: _, [] => .ok []
  | t :: ts, j :: js =>
    match decodeArg t j with
    | none => .error (NewBindingError name
        ("failed to convert argument " ++ toString i ++ " to " ++ goTypeName t)
        (some (.jsonError (unmarshalErrMsg t j))))
    | some v =>
      match decodeLoop name (i + 1) ts js with
      | .error e => .error e
      | .ok vs => .ok (v :: vs)

/-- processResults: normalize the invocation results per return
arity, as the source switch on NumOut/HasError does.  The two shapes
a validated registration can never store map to the panicking
IsNil call and to the default fmt.Errorf branch respectively. -/
def processResults : GoFunc → List GoVal → Except GoError GoVal
  | .f0 _ _, _ => .ok .nilVal
  | .f1val _ body, vs => .ok (body vs)
  | .f1err _ body, vs =>
    match body vs with
    | some e => .error e
    | none => .ok .nilVal
  | .f2 _ body, vs =>
    match body vs with
    | (_, some e) => .error e
    | (v, none) => .ok v
  | .f2noerr _ _, _ =>
      .error (.custom "panic: reflect: IsNil of non-nilable value" none)
  | .fmany _ k _, _ =>
      .error (.custom ("unexpected number of return values: "
        ++ toString (k + 3)) none)

/-- Registry.Call: look up the binding, decode the raw argument
array, check the exact argument count, decode each argument into its
declared parameter type, invoke, and normalize the results. -/
def Registry.Call (r : Registry) (name : String) (argsJSON : Option Json) :
    Except GoError GoVal :=
  match lookupReg r name with
  | none => .error (NewBindingError name "not found" (some (.sentinel .notFound)))
  | some bound =>
    match parseRawArgs name argsJSON with
    | .error e => .error e
    | .ok rawArgs =>
      if rawArgs.length = bound.numIn then
        match decodeLoop name 0 bound.fn.params rawArgs with
        | .error e => .error e
        | .ok vs => processResults bound.fn vs
      else
        .error (NewBindingError name
          ("expected " ++ toString bound.numIn ++ " arguments, got "
            ++ toString rawArgs.length)
          (some (.sentinel .invalidArgument)))

/-- Registry.CallWithMessage: the full request/response wrapper. -/
def Registry.CallWithMessage (now : Int) (r : Registry) (msg : Message) : Message :=
  if ¬ msg.type = MessageTypeCall then
    NewErrorMessage now msg.id ErrCodeUnknown "expected call message" ""
  else
    match r.Call msg.method msg.args with
    | .error err =>
      let code := if errorsIs err .notFound then ErrCodeMethodNotFound
        else if errorsIs err .invalidArgument then ErrCodeInvalidArgs
        else ErrCodeExecution
      NewErrorMessage now msg.id code (errorString err) ""
    | .ok result =>
      match NewResultMessage now msg.id result with
      | .error err =>
          NewErrorMessage now msg.id ErrCodeExecution "failed to serialize result"
            (errorString err)
      | .ok m => m

/-! ## Bridge coordinator (internal/bridge/bridge.go) -/

/-- The state of one pending-call handoff channel: the messages sent
into it, and whether it has been closed. -/
structure ChanState where
  buf : List Message := []
  closed : Bool := false

/-- The Bridge: registry plus the pending-call table for
native-originated async calls.  Channels live in a store indexed by
handle, so delivery stays observable after the table entry is
removed. -/
structure Bridge where
  registry : Registry
  pendingCalls : List (String × Nat) := []
  chans : List ChanState := []

def NewBridge (r : Registry) : Bridge := { registry := r }

/-- Pending-table lookup by correlation ID. -/
def lookupPending (p : List (String × Nat)) (id : String) : Option Nat :=
  match p.find? (fun e => e.1 = id) with
  | some e => some e.2
  | none => none

/-- Map delete on the pending table. -/
def removePending (p : List (String × Nat)) (id : String) : List (String × Nat) :=
  p.filter (fun e => ¬ e.1 = id)

/-- Update one channel in the store. -/
def updateChan (cs : List ChanState) (idx : Nat) (f : ChanState → ChanState) :
    List ChanState :=
  match cs, idx with
  | [], _ => []
  | c :: rest, 0 => f c :: rest
  | c :: rest, n + 1 => c :: updateChan rest n f

/-- Sending a message into a channel and then closing it, as
handlePendingResponse does. -/
def sendAndClose (m : Message) (c : ChanState) : ChanState :=
  { buf := c.buf ++ [m], closed := true }

/-- Bridge.handlePendingResponse: messages with an empty ID are
ignored; if a pending entry matches the correlation ID, the message
is handed to the waiting consumer through its channel and the entry
is removed and the channel closed; otherwise the message is silently
dropped. -/
def Bridge.handlePendingResponse (b : Bridge) (msg : Message) : Bridge :=
  if msg.id = "" then b
  else
    match lookupPending b.pendingCalls msg.id with
    | none => b
    | some idx =>
      { b with pendingCalls := removePending b.pendingCalls msg.id,
               chans := updateChan b.chans idx (sendAndClose msg) }

/-- Bridge.HandleMessage: decode the inbound text; on decode failure
reply with an error message with empty correlation ID; dispatch call
messages to the registry, result/error messages to the pending
table (returning no synchronous reply, modelled as `none`), and
anything else to an unknown-type error reply. -/
def Bridge.HandleMessage (now : Int) (b : Bridge) (msgJSON : Json) :
    Bridge × Option Json :=
  match FromJSON msgJSON with
  | .error err =>
    (b, some (Message.toJSON
      (NewErrorMessage now "" ErrCodeUnknown "failed to parse message"
        (errorString err))))
  | .ok msg =>
    if msg.type = MessageTypeCall then
      (b, some (Message.toJSON (Registry.CallWithMessage now b.registry msg)))
    else if msg.type = MessageTypeResult ∨ msg.type = MessageTypeError then
      (b.handlePendingResponse msg, none)
    else
      (b, some (Message.toJSON
        (NewErrorMessage now msg.id ErrCodeUnknown
          ("unknown message type: " ++ msg.type) "")))

/-! ## Helper lemmas -/

lemma fromJSON_toJSON_call (now : Int) (i m : String) (j : Json) :
    FromJSON (Message.toJSON { id := i, type := MessageTypeCall, method := m,
                               args := some j, timestamp := now }) =
      .ok { id := i, type := MessageTypeCall, method := m,
            args := some j, timestamp := now } := by
  by_cases hid : i = "" <;> by_cases hm : m = "" <;> by_cases ht : now = 0 <;>
    simp [Message.toJSON, FromJSON, applyField, hid, hm, ht, MessageTypeCall] <;> rfl

lemma fromJSON_toJSON_result (now : Int) (i : String) (j : Json) :
    FromJSON (Message.toJSON { id := i, type := MessageTypeResult,
                               result := some j, timestamp := now }) =
      .ok { id := i, type := MessageTypeResult,
            result := some j, timestamp := now } := by
  by_cases hid : i = "" <;> by_cases ht : now = 0 <;>
    simp [Message.toJSON, FromJSON, applyField, hid, ht, MessageTypeResult] <;> rfl

lemma fromJSON_toJSON_error (now : Int) (i : String) (c : Int) (msg det : String) :
    FromJSON (Message.toJSON (NewErrorMessage now i c msg det)) =
      .ok (NewErrorMessage now i c msg det) := by
  by_cases hid : i = "" <;> by_cases ht : now = 0 <;> by_cases hd : det = "" <;>
    simp [NewErrorMessage, Message.toJSON, FromJSON, applyField, applyErrField,
          errorPayloadToJSON, hid, ht, hd, MessageTypeError] <;> rfl

lemma fromJSON_toJSON_event (now : Int) (ev : String) (j : Json) :
    FromJSON (Message.toJSON { type := MessageTypeEvent, event := ev,
                               data := some j, timestamp := now }) =
      .ok { type := MessageTypeEvent, event := ev,
            data := some j, timestamp := now } := by
  by_cases he : ev = "" <;> by_cases ht : now = 0 <;>
    simp [Message.toJSON, FromJSON, applyField, he, ht, MessageTypeEvent] <;> rfl

lemma decodeLoop_error_errorsIs (name : String) :
    ∀ (ts : List GoType) (js : List Json) (i : Nat) (e : GoError) (s : Sentinel),
      decodeLoop name i ts js = .error e → errorsIs e s = false := by
  intro ts
  induction ts with
  | nil => intro js i e s h; simp [decodeLoop] at h
  | cons t ts ih =>
    intro js i e s h
    cases js with
    | nil => simp [decodeLoop] at h
    | cons j js =>
      simp only [decodeLoop] at h
      cases hd : decodeArg t j with
      | none =>
        rw [hd] at h
        simp only [Except.error.injEq] at h
        subst h
        simp [errorsIs, NewBindingError]
      | some v =>
        rw [hd] at h
        cases hrec : decodeLoop name (i + 1) ts js with
        | error e2 =>
          rw [hrec] at h
          simp only [Except.error.injEq] at h
          exact h ▸ ih js (i + 1) e2 s hrec
        | ok vs => rw [hrec] at h; simp at h

lemma lookupPending_removePending (p : List (String × Nat)) (i : String) :
    lookupPending (removePending p i) i = none := by
  induction p with
  | nil => rfl
  | cons e rest ih =>
    by_cases h : e.1 = i
    · simpa [removePending, h] using ih
    · simpa [removePending, lookupPending, List.find?, h] using ih

/-! ## Concrete instances used by the claim theorems and witnesses -/

/-- The add(a int, b int) int function of the spec scenarios. -/
def addFn : GoFunc :=
  .f1val [.int, .int] (fun vs =>
    match vs with
    | [.int a, .int b] => .int (a + b)
    | _ => .int 0)

def addRegistry : Registry := (Registry.Register NewRegistry "add" (.fn addFn)).1

def addBridge : Bridge := NewBridge addRegistry

/-- The wire text for call add [3,4] with id x1, as a parse tree. -/
def c2input : Json := .obj [("type", .str "call"), ("method", .str "add"),
  ("args", .arr [.num 3, .num 4]), ("id", .str "x1")]

/-- A 2-return function whose first return is non-nil alongside a
non-nil error: the first value is discarded on the error path. -/
def discardFn : GoFunc :=
  .f2 [] (fun _ => (.int 99, some (.custom "boom" none)))

def discardRegistry : Registry :=
  (Registry.Register NewRegistry "g" (.fn discardFn)).1

def c7msg : Message :=
  { id := "a", type := MessageTypeCall, method := "m",
    args := some (.arr [.num 1]), timestamp := 5 }

def c8bridge : Bridge :=
  { registry := NewRegistry, pendingCalls := [("k", 0)],
    chans := [{ buf := [], closed := false }] }

def c8resp : Message := { id := "k", type := MessageTypeResult }

def c8resp2 : Message := { id := "k", type := MessageTypeError }

/-! ## Claim theorems -/

/-- C1 counterexample: add is bound with two int parameters; the call
has the matching argument count but the first raw argument is a JSON
bool that fails to decode into int.  The reply carries the Execution
wire code (-4), not InvalidArgs (-3) as the claim states, because the
conversion BindingError wraps the json decode error rather than
ErrInvalidArgument. -/
theorem c1_counterexample :
    (Registry.CallWithMessage 0 addRegistry
        { id := "c1", type := "call", method := "add",
          args := some (.arr [.bool true, .num 4]) }).error.map ErrorPayload.code
      = some ErrCodeExecution
    ∧ ¬ (Registry.CallWithMessage 0 addRegistry
        { id := "c1", type := "call", method := "add",
          args := some (.arr [.bool true, .num 4]) }).error.map ErrorPayload.code
      = some ErrCodeInvalidArgs := by
  exact ⟨rfl, by decide⟩

/-- C1 (amended): for every registered function and call whose
decoded argument count matches the declared parameter count but where
some argument's raw JSON fails to decode into the declared parameter
type, CallWithMessage returns an error-type Message carrying the
Execution wire code (-4): the conversion failure's BindingError wraps
the JSON decode error, not ErrInvalidArgument, so the kind-to-code
mapping falls through to Execution. -/
theorem c1_arg_decode_failure_yields_execution
    (now : Int) (r : Registry) (name mid : String) (bound : BoundFunc)
    (xs : List Json) (e : GoError)
    (hlk : lookupReg r name = some bound)
    (hlen : xs.length = bound.numIn)
    (hdec : decodeLoop name 0 bound.fn.params xs = .error e) :
    (Registry.CallWithMessage now r
        { id := mid, type := MessageTypeCall, method := name,
          args := some (.arr xs) }).type = MessageTypeError
    ∧ (Registry.CallWithMessage now r
        { id := mid, type := MessageTypeCall, method := name,
          args := some (.arr xs) }).error =
      some { code := ErrCodeExecution, message := errorString e, details := "" } := by
  have hca : Registry.Call r name (some (.arr xs)) = .error e := by
    simp [Registry.Call, hlk, parseRawArgs, hlen, hdec]
  have hnf := decodeLoop_error_errorsIs name bound.fn.params xs 0 e .notFound hdec
  have hia := decodeLoop_error_errorsIs name bound.fn.params xs 0 e
    .invalidArgument hdec
  simp [Registry.CallWithMessage, MessageTypeCall, hca, hnf, hia, NewErrorMessage,
        MessageTypeError]

theorem c1_witness :
    (Registry.CallWithMessage 7 addRegistry
        { id := "w1", type := MessageTypeCall, method := "add",
          args := some (.arr [.bool true, .num 4]) }).type = MessageTypeError :=
  (c1_arg_decode_failure_yields_execution 7 addRegistry "add" "w1"
    (mkBound "add" addFn) [.bool true, .num 4]
    (NewBindingError "add" "failed to convert argument 0 to int"
      (some (.jsonError (unmarshalErrMsg .int (.bool true)))))
    rfl rfl rfl).1

/-- C2: with add(a int, b int) int registered, HandleMessage on the
wire text for a call of add with args [3,4] and id x1 returns the
serialization of a Message with id x1, type result and result 7. -/
theorem c2_handleMessage_add (now : Int) :
    (Bridge.HandleMessage now addBridge c2input).2 =
      some (Message.toJSON { id := "x1", type := MessageTypeResult,
                             result := some (.num 7), timestamp := now }) := rfl

/-- C3: for a registered function whose invocation completes, Call
factors through processResults, and processResults implements exactly
the arity rule: 0 returns give nil result and no error; 1 error-typed
return gives the error when non-nil, else nil result and no error; 1
non-error return gives that value and no error; 2 returns give the
error when the second is non-nil — discarding the first value even if
non-nil — and otherwise the first value and no error. -/
theorem c3_call_normalizes_by_arity
    (r : Registry) (name : String) (f : GoFunc) (xs : List Json) (vs : List GoVal)
    (hlk : lookupReg r name = some (mkBound name f))
    (hlen : xs.length = f.params.length)
    (hdec : decodeLoop name 0 f.params xs = .ok vs) :
    Registry.Call r name (some (.arr xs)) = processResults f vs
    ∧ (∀ ps body ws, processResults (.f0 ps body) ws = .ok .nilVal)
    ∧ (∀ ps body ws e, body ws = some e →
        processResults (.f1err ps body) ws = .error e)
    ∧ (∀ ps body ws, body ws = none →
        processResults (.f1err ps body) ws = .ok .nilVal)
    ∧ (∀ ps body ws, processResults (.f1val ps body) ws = .ok (body ws))
    ∧ (∀ ps body ws v e, body ws = (v, some e) →
        processResults (.f2 ps body) ws = .error e)
    ∧ (∀ ps body ws v, body ws = (v, none) →
        processResults (.f2 ps body) ws = .ok v) := by
  refine ⟨?_, ?_, ?_, ?_, ?_, ?_, ?_⟩
  · simp [Registry.Call, hlk, parseRawArgs, mkBound, hlen, hdec]
  · intro ps body ws; rfl
  · intro ps body ws e h; simp [processResults, h]
  · intro ps body ws h; simp [processResults, h]
  · intro ps body ws; rfl
  · intro ps body ws v e h; simp [processResults, h]
  · intro ps body ws v h; simp [processResults, h]

theorem c3_witness :
    Registry.Call discardRegistry "g" (some (.arr [])) =
      .error (.custom "boom" none) := by
  have h := c3_call_normalizes_by_arity discardRegistry "g" discardFn [] []
    rfl rfl rfl
  rw [h.1]
  exact h.2.2.2.2.2.1 [] _ [] (.int 99) (.custom "boom" none) rfl

/-- C4: for every registered function and every decoded argument
array whose length differs from the declared parameter count, Call
fails with the argument-count BindingError wrapping
ErrInvalidArgument; the result is a constant independent of the bound
function's body (so the function is never invoked), and the check is
an exact match for every differing length — no optional, variadic or
default-filled parameters. -/
theorem c4_argument_count_mismatch
    (r : Registry) (name : String) (bound : BoundFunc) (xs : List Json)
    (hlk : lookupReg r name = some bound)
    (hlen : ¬ xs.length = bound.numIn) :
    Registry.Call r name (some (.arr xs)) =
      .error (NewBindingError name
        ("expected " ++ toString bound.numIn ++ " arguments, got "
          ++ toString xs.length)
        (some (.sentinel .invalidArgument)))
    ∧ (∀ e, Registry.Call r name (some (.arr xs)) = .error e →
        errorsIs e .invalidArgument = true)
    ∧ (∀ (r2 : Registry) (bound2 : BoundFunc),
        lookupReg r2 name = some bound2 → bound2.numIn = bound.numIn →
        Registry.Call r2 name (some (.arr xs)) =
          Registry.Call r name (some (.arr xs))) := by
  have hmain : Registry.Call r name (some (.arr xs)) =
      .error (NewBindingError name
        ("expected " ++ toString bound.numIn ++ " arguments, got "
          ++ toString xs.length)
        (some (.sentinel .invalidArgument))) := by
    simp [Registry.Call, hlk, parseRawArgs, hlen]
  refine ⟨hmain, ?_, ?_⟩
  · intro e he
    rw [hmain] at he
    simp only [Except.error.injEq] at he
    subst he
    rfl
  · intro r2 bound2 hlk2 hnum
    have h2 : Registry.Call r2 name (some (.arr xs)) =
        .error (NewBindingError name
          ("expected " ++ toString bound2.numIn ++ " arguments, got "
            ++ toString xs.length)
          (some (.sentinel .invalidArgument))) := by
      simp [Registry.Call, hlk2, parseRawArgs, hnum ▸ hlen]
    rw [h2, hmain, hnum]

theorem c4_witness :
    errorsIs (NewBindingError "add" "expected 2 arguments, got 1"
      (some (.sentinel .invalidArgument))) .invalidArgument = true :=
  (c4_argument_count_mismatch addRegistry "add" (mkBound "add" addFn)
    [.num 3] rfl (by decide)).2.1 _
    ((c4_argument_count_mismatch addRegistry "add" (mkBound "add" addFn)
      [.num 3] rfl (by decide)).1)

/-- C5: Register rejects with an InvalidBindingError every function
with more than 2 return values, and every 2-return function whose
second return is not the error-indicator type; a function passing the
checks is stored as its BoundFunc snapshot.  (The duplicate-name and
empty-name checks precede the shape checks in the source, hence the
fresh-name hypotheses.) -/
theorem c5_register_validates_return_shape :
    (∀ (r : Registry) (name : String) (ps : List GoType) (k : Nat) (le : Bool),
      ¬ name = "" → lookupReg r name = none →
      Registry.Register r name (.fn (.fmany ps k le)) =
        (r, some (NewBindingError name "too many return values (max 2)" none)))
    ∧ (∀ (r : Registry) (name : String) (ps : List GoType)
        (body : List GoVal → GoVal × GoVal),
      ¬ name = "" → lookupReg r name = none →
      Registry.Register r name (.fn (.f2noerr ps body)) =
        (r, some (NewBindingError name "second return value must be error" none)))
    ∧ (∀ (r : Registry) (name : String) (f : GoFunc),
      ¬ name = "" → lookupReg r name = none →
      f.numOut ≤ 2 → (f.numOut = 2 → f.hasError = true) →
      Registry.Register r name (.fn f) =
        (⟨(name, mkBound name f) :: r.funcs⟩, none)) := by
  refine ⟨?_, ?_, ?_⟩
  · intro r name ps k le hne hlk
    simp [Registry.Register, hne, hlk, GoFunc.numOut]
  · intro r name ps body hne hlk
    simp [Registry.Register, hne, hlk, GoFunc.numOut, GoFunc.hasError]
  · intro r name f hne hlk hout herr
    cases f with
    | f0 ps body =>
        simp [Registry.Register, hne, hlk, GoFunc.numOut, GoFunc.hasError]
    | f1val ps body =>
        simp [Registry.Register, hne, hlk, GoFunc.numOut, GoFunc.hasError]
    | f1err ps body =>
        simp [Registry.Register, hne, hlk, GoFunc.numOut, GoFunc.hasError]
    | f2 ps body =>
        simp [Registry.Register, hne, hlk, GoFunc.numOut, GoFunc.hasError]
    | f2noerr ps body =>
        exact absurd (herr rfl) (by simp [GoFunc.hasError])
    | fmany ps k le =>
        exact absurd hout (by simp [GoFunc.numOut])

theorem c5_witness :
    Registry.Register NewRegistry "h" (.fn (.f2noerr []
        (fun _ => (.int 1, .int 2)))) =
      (NewRegistry, some (NewBindingError "h"
        "second return value must be error" none)) :=
  c5_register_validates_return_shape.2.1 NewRegistry "h" []
    (fun _ => (.int 1, .int 2)) (by decide) rfl

/-- C6: registering an already-registered name fails with the
DuplicateBinding error (BindingError wrapping ErrAlreadyExists),
leaves the function table unchanged, keeps the original binding
visible, and a subsequent Call to that name behaves exactly as it did
against the original registry. -/
theorem c6_duplicate_register
    (r : Registry) (name : String) (b0 : BoundFunc) (f : GoFunc)
    (hne : ¬ name = "") (hlk : lookupReg r name = some b0) :
    Registry.Register r name (.fn f) =
      (r, some (NewBindingError name "already registered"
        (some (.sentinel .alreadyExists))))
    ∧ lookupReg (Registry.Register r name (.fn f)).1 name = some b0
    ∧ (∀ aj, Registry.Call (Registry.Register r name (.fn f)).1 name aj =
        Registry.Call r name aj) := by
  have hmain : Registry.Register r name (.fn f) =
      (r, some (NewBindingError name "already registered"
        (some (.sentinel .alreadyExists)))) := by
    simp [Registry.Register, hne, hlk]
  exact ⟨hmain, by rw [hmain]; exact hlk, fun aj => by rw [hmain]⟩

theorem c6_witness :
    (Registry.Register addRegistry "add" (.fn addFn)).1 = addRegistry := by
  rw [(c6_duplicate_register addRegistry "add" (mkBound "add" addFn) addFn
    (by decide) rfl).1]

/-- C7: every Message built by one of the four constructors
round-trips through ToJSON and FromJSON to a Message equal to the
original (full structural equality, which subsumes field-wise
equality on the fields relevant to its type). -/
theorem c7_constructor_roundtrip :
    (∀ (now : Int) (i m : String) (v : GoVal) (msg : Message),
      NewCallMessage now i m v = .ok msg → FromJSON msg.toJSON = .ok msg)
    ∧ (∀ (now : Int) (i : String) (v : GoVal) (msg : Message),
      NewResultMessage now i v = .ok msg → FromJSON msg.toJSON = .ok msg)
    ∧ (∀ (now : Int) (i : String) (c : Int) (m det : String),
      FromJSON (NewErrorMessage now i c m det).toJSON =
        .ok (NewErrorMessage now i c m det))
    ∧ (∀ (now : Int) (ev : String) (v : GoVal) (msg : Message),
      NewEventMessage now ev v = .ok msg → FromJSON msg.toJSON = .ok msg) := by
  refine ⟨?_, ?_, fun now i c m det => fromJSON_toJSON_error now i c m det, ?_⟩
  · intro now i m v msg h
    simp only [NewCallMessage] at h
    cases he : encodeGoVal v with
    | none => rw [he] at h; simp at h
    | some j =>
      rw [he] at h
      simp only [Except.ok.injEq] at h
      subst h
      exact fromJSON_toJSON_call now i m j
  · intro now i v msg h
    simp only [NewResultMessage] at h
    cases he : encodeGoVal v with
    | none => rw [he] at h; simp at h
    | some j =>
      rw [he] at h
      simp only [Except.ok.injEq] at h
      subst h
      exact fromJSON_toJSON_result now i j
  · intro now ev v msg h
    simp only [NewEventMessage] at h
    cases he : encodeGoVal v with
    | none => rw [he] at h; simp at h
    | some j =>
      rw [he] at h
      simp only [Except.ok.injEq] at h
      subst h
      exact fromJSON_toJSON_event now ev j

theorem c7_witness : FromJSON c7msg.toJSON = .ok c7msg :=
  c7_constructor_roundtrip.1 5 "a" "m" (.arr [.int 1]) c7msg rfl

/-- C8: at-most-once delivery for a correlation ID: HandleMessage
routes result/error messages to handlePendingResponse; the first
matching response removes the pending entry and hands exactly that
message to the waiting consumer's channel, and a second response with
the same ID leaves the bridge unchanged — silently dropped, no double
delivery and no panic (the handler is a total function). -/
theorem c8_at_most_once_delivery
    (b : Bridge) (msg msg2 : Message) (idx : Nat)
    (hid : ¬ msg.id = "") (hid2 : msg2.id = msg.id)
    (hpend : lookupPending b.pendingCalls msg.id = some idx) :
    (b.handlePendingResponse msg).pendingCalls =
      removePending b.pendingCalls msg.id
    ∧ (b.handlePendingResponse msg).chans =
      updateChan b.chans idx (sendAndClose msg)
    ∧ lookupPending (b.handlePendingResponse msg).pendingCalls msg.id = none
    ∧ (b.handlePendingResponse msg).handlePendingResponse msg2 =
      b.handlePendingResponse msg
    ∧ (∀ (now : Int) (bb : Bridge) (j : Json) (m : Message),
        FromJSON j = .ok m →
        (m.type = MessageTypeResult ∨ m.type = MessageTypeError) →
        Bridge.HandleMessage now bb j = (bb.handlePendingResponse m, none)) := by
  have hstep : b.handlePendingResponse msg =
      { b with pendingCalls := removePending b.pendingCalls msg.id,
               chans := updateChan b.chans idx (sendAndClose msg) } := by
    simp [Bridge.handlePendingResponse, hid, hpend]
  refine ⟨by rw [hstep], by rw [hstep], ?_, ?_, ?_⟩
  · rw [hstep]
    exact lookupPending_removePending b.pendingCalls msg.id
  · have hnone : lookupPending (b.handlePendingResponse msg).pendingCalls msg2.id
        = none := by
      rw [hid2, hstep]
      exact lookupPending_removePending b.pendingCalls msg.id
    have key : ∀ (bb : Bridge), lookupPending bb.pendingCalls msg2.id = none →
        bb.handlePendingResponse msg2 = bb := by
      intro bb hb
      simp [Bridge.handlePendingResponse, hb]
    exact key (b.handlePendingResponse msg) hnone
  · intro now bb j m hdec hty
    rcases hty with h | h <;>
      simp [Bridge.HandleMessage, hdec, h, MessageTypeResult, MessageTypeError,
            MessageTypeCall]

theorem c8_witness :
    lookupPending (c8bridge.handlePendingResponse c8resp).pendingCalls "k"
      = none :=
  (c8_at_most_once_delivery c8bridge c8resp c8resp2 0
    (by decide) rfl rfl).2.2.1

/-- C9: for every inbound text that fails to decode into a Message,
HandleMessage leaves the bridge untouched and returns the
serialization of an error-type Message whose correlation ID is the
empty string (none could be recovered from the malformed input). -/
theorem c9_decode_failure_reply
    (now : Int) (b : Bridge) (j : Json) (e : GoError)
    (hdec : FromJSON j = .error e) :
    Bridge.HandleMessage now b j =
      (b, some (Message.toJSON (NewErrorMessage now "" ErrCodeUnknown
        "failed to parse message" (errorString e))))
    ∧ (NewErrorMessage now "" ErrCodeUnknown
        "failed to parse message" (errorString e)).id = ""
    ∧ (NewErrorMessage now "" ErrCodeUnknown
        "failed to parse message" (errorString e)).type = MessageTypeError := by
  refine ⟨?_, rfl, rfl⟩
  simp [Bridge.HandleMessage, hdec]

theorem c9_witness :
    Bridge.HandleMessage 3 (NewBridge NewRegistry) (.num 5) =
      ((NewBridge NewRegistry), some (Message.toJSON (NewErrorMessage 3 ""
        ErrCodeUnknown "failed to parse message"
        (errorString (.jsonError
          "json: cannot unmarshal number into Go value of type bridge.Message"))))) :=
  (c9_decode_failure_reply 3 (NewBridge NewRegistry) (.num 5)
    (.jsonError "json: cannot unmarshal number into Go value of type bridge.Message")
    rfl).1

/-- C10: CallWithMessage always produces a reply Message whose ID
equals the request's ID and whose type is result or error; any
non-call message yields an error-type reply with the same correlation
ID; and a call whose successful result fails to serialize is
downgraded to an Execution error-type reply rather than a missing or
malformed one. -/
theorem c10_callWithMessage_reply_invariant
    (now : Int) (r : Registry) (msg : Message) :
    (Registry.CallWithMessage now r msg).id = msg.id
    ∧ ((Registry.CallWithMessage now r msg).type = MessageTypeResult
       ∨ (Registry.CallWithMessage now r msg).type = MessageTypeError)
    ∧ (¬ msg.type = MessageTypeCall →
        (Registry.CallWithMessage now r msg).type = MessageTypeError)
    ∧ (∀ v, msg.type = MessageTypeCall →
        r.Call msg.method msg.args = .ok v → encodeGoVal v = none →
        Registry.CallWithMessage now r msg =
          NewErrorMessage now msg.id ErrCodeExecution
            "failed to serialize result"
            (errorString (.jsonError "json: unsupported type"))) := by
  by_cases hty : msg.type = MessageTypeCall
  · refine ⟨?_, ?_, fun h => absurd hty h, ?_⟩
    · simp only [Registry.CallWithMessage, hty, not_true_eq_false, if_false]
      cases hc : r.Call msg.method msg.args with
      | error err => simp [NewErrorMessage]
      | ok v =>
        simp only [NewResultMessage]
        cases he : encodeGoVal v with
        | none => simp [NewErrorMessage]
        | some j => simp
    · simp only [Registry.CallWithMessage, hty, not_true_eq_false, if_false]
      cases hc : r.Call msg.method msg.args with
      | error err => right; simp [NewErrorMessage, MessageTypeError]
      | ok v =>
        simp only [NewResultMessage]
        cases he : encodeGoVal v with
        | none => right; simp [NewErrorMessage, MessageTypeError]
        | some j => left; simp [MessageTypeResult]
    · intro v hc hok hen
      simp [Registry.CallWithMessage, hty, hok, NewResultMessage, hen]
  · have hmain : Registry.CallWithMessage now r msg =
        NewErrorMessage now msg.id ErrCodeUnknown "expected call message" "" := by
      simp [Registry.CallWithMessage, hty]
    refine ⟨by rw [hmain]; rfl, Or.inr (by rw [hmain]; rfl),
      fun _ => by rw [hmain]; rfl, fun v hc => absurd hc hty⟩

theorem c10_witness :
    (Registry.CallWithMessage 0 NewRegistry { id := "q", type := "event" }).type
      = MessageTypeError :=
  (c10_callWithMessage_reply_invariant 0 NewRegistry
    { id := "q", type := "event" }).2.2.1 (by decide)

end Gomad
